import Mathlib

/-!
Shallow embedding of `src/utils.rs` of the imageproc test-support crate:
pixel-buffer diffing, benchmark image generation, quickcheck-style
arbitrary generation and shrinking of image buffers.

An image buffer (`image::ImageBuffer`) is a width, a height and a flat
row-major vector of pixels; pixel `(x, y)` lives at index `y * width + x`.
Subpixels are `u8` in every concrete claim, modelled as `Nat` with the
`as u8` casts written as `% 256` where they occur.
-/

namespace ImageprocUtils

/-- Pixel buffer: width, height and flat row-major pixel data,
mirroring `image::ImageBuffer` (`data.length = width * height` for
buffers built by the functions below). -/
structure Img (P : Type) where
  width : Nat
  height : Nat
  data : List P
deriving DecidableEq, Repr

/-- Dimensions pair, as returned by `GenericImage::dimensions()`. -/
def Img.dims (img : Img P) : Nat × Nat := (img.width, img.height)

/-- Pixel access at `(x, y)`: row-major flat index `y * width + x`,
mirroring `ImageBuffer::get_pixel` (only ever used in range). -/
def Img.get_pixel [Inhabited P] (img : Img P) (x y : Nat) : P :=
  img.data.getD (y * img.width + x) default

/-- Row-major pixel iterator of `GenericImage::pixels`: yields
`(x, y, pixel)` with `y` outer and `x` inner. -/
def Img.pixels [Inhabited P] (img : Img P) : List (Nat × Nat × P) :=
  (List.range img.height).flatMap fun y =>
    (List.range img.width).map fun x => (x, y, img.get_pixel x y)

/-- Embeds `is_empty`: `image.width() == 0 || image.height() == 0`. -/
def is_empty (img : Img P) : Bool :=
  img.width == 0 || img.height == 0

/-- Embeds `pixel_diffs`: returns `[]` at once if either buffer is
empty, else zips the two row-major pixel streams and keeps the pairs on
which `is_diff` holds. -/
def pixel_diffs [Inhabited P] (left right : Img P)
    (is_diff : Nat × Nat × P → Nat × Nat × P → Bool) :
    List ((Nat × Nat × P) × (Nat × Nat × P)) :=
  if is_empty left || is_empty right then []
  else ((left.pixels.zip right.pixels).filter fun pq => is_diff pq.1 pq.2)

/-- Embeds `describe_pixel_diffs`: header `"pixels do not match. "`
followed by one `actual/expected` line for each of the first 5 diffs, in
order. The Rust `{:?}` formatting of a diff endpoint is abstracted as
`fmt`. -/
def describe_pixel_diffs (fmt : α → String) (diffs : List (α × α)) : String :=
  "pixels do not match. " ++
    String.join ((diffs.take 5).map fun d =>
      "\nactual: " ++ fmt d.1 ++ ", expected " ++ fmt d.2 ++ " ")

/-- Debug rendering of a `(u32, u32)` dimensions pair. -/
def fmt_dims (d : Nat × Nat) : String :=
  "(" ++ toString d.1 ++ ", " ++ toString d.2 ++ ")"

/-- The dimension-mismatch message built both by
`significant_pixel_diff_summary` and by `assert_dimensions_match!`. -/
def dim_mismatch_msg (actual expected : Nat × Nat) : String :=
  "dimensions do not match. actual: " ++ fmt_dims actual ++
    ", expected: " ++ fmt_dims expected

/-- Embeds `significant_pixel_diff_summary`: dimension mismatch short
circuits to the mismatch message; otherwise the diff list decides
between `none` and a rendered description. -/
def significant_pixel_diff_summary [Inhabited P] (fmt : Nat × Nat × P → String)
    (actual expected : Img P)
    (is_significant_diff : Nat × Nat × P → Nat × Nat × P → Bool) :
    Option String :=
  if actual.dims ≠ expected.dims then
    some (dim_mismatch_msg actual.dims expected.dims)
  else
    let diffs := pixel_diffs actual expected is_significant_diff
    if diffs.isEmpty then none
    else some (describe_pixel_diffs fmt diffs)

/-- Embeds `pixel_diff_summary`: significance predicate is inequality of
the full `(x, y, pixel)` triples (`|p, q| p != q`). -/
def pixel_diff_summary [Inhabited P] [DecidableEq P]
    (fmt : Nat × Nat × P → String) (actual expected : Img P) : Option String :=
  significant_pixel_diff_summary fmt actual expected
    (fun p q => decide (p ≠ q))

/-- Embeds the `assert_dimensions_match!` macro: `error` with the
formatted message models the panic. -/
def assert_dimensions_match (actual expected : Img P) : Except String Unit :=
  if actual.dims ≠ expected.dims then
    Except.error (dim_mismatch_msg actual.dims expected.dims)
  else Except.ok ()

/-- Absolute difference of two unsigned subpixels, exactly as in the
`assert_pixels_eq_within!` closure:
`if sp > sq then sp - sq else sq - sp`. -/
def subpixel_abs_diff (sp sq : Nat) : Nat :=
  if sp > sq then sp - sq else sq - sp

/-- Embeds the closure of `assert_pixels_eq_within!` on the channel
lists of two pixels: `none` models the panic on differing channel
counts, `some b` is the computed `large_diff` flag (some channel's
absolute difference exceeds the tolerance). -/
def large_diff (tol : Nat) (cp cq : List Nat) : Option Bool :=
  if cp.length ≠ cq.length then none
  else some ((cp.zip cq).any fun s => subpixel_abs_diff s.1 s.2 > tol)

/-- Option-valued filter, used to propagate a panic (`none`) raised by a
predicate out of a `pixel_diffs` scan. -/
def filterOpt (f : α → Option Bool) : List α → Option (List α)
  | [] => some []
  | a :: as =>
    match f a with
    | none => none
    | some b =>
      match filterOpt f as with
      | none => none
      | some rest => some (if b then a :: rest else rest)

/-- Embeds `pixel_diffs` called with a closure that may panic (`none`):
the panic propagates out of the scan; empty buffers still short-circuit
to `some []` before the predicate runs. -/
def pixel_diffs_p [Inhabited P] (left right : Img P)
    (is_diff : Nat × Nat × P → Nat × Nat × P → Option Bool) :
    Option (List ((Nat × Nat × P) × (Nat × Nat × P))) :=
  if is_empty left || is_empty right then some []
  else filterOpt (fun pq => is_diff pq.1 pq.2) (left.pixels.zip right.pixels)

/-- Embeds the `assert_pixels_eq_within!` macro on buffers whose pixels
are channel lists: dimension check, then the tolerance scan (channel
count mismatch panics), then panic with the rendered diffs when any
survive. `error`/`ok` model panic/pass. -/
def assert_pixels_eq_within (fmt : Nat × Nat × List Nat → String)
    (actual expected : Img (List Nat)) (tol : Nat) : Except String Unit :=
  if actual.dims ≠ expected.dims then
    Except.error (dim_mismatch_msg actual.dims expected.dims)
  else
    match pixel_diffs_p actual expected
        (fun p q => large_diff tol p.2.2 q.2.2) with
    | none => Except.error "pixels have different channel counts."
    | some [] => Except.ok ()
    | some diffs => Except.error (describe_pixel_diffs fmt diffs)

/-- Embeds `copy_sub`: fresh `width × height` buffer whose pixel
`(dx, dy)` is the parent pixel `(x + dx, y + dy)`, written row-major by
the double loop (`dy` outer, `dx` inner). -/
def copy_sub [Inhabited P] (image : Img P) (x y width height : Nat) : Img P :=
  ⟨width, height,
    (List.range height).flatMap fun dy =>
      (List.range width).map fun dx => image.get_pixel (x + dx) (y + dy)⟩

/-- Embeds `shrink`: if `w > 0` push `copy_sub image 0 0 (w-1) h` then
`copy_sub image 1 0 (w-1) h`; if `h > 0` push `copy_sub image 0 0 w (h-1)`
then `copy_sub image 0 1 w (h-1)`; return the pushed list. -/
def shrink [Inhabited P] (image : Img P) : List (Img P) :=
  (if image.width > 0 then
    [copy_sub image 0 0 (image.width - 1) image.height,
     copy_sub image 1 0 (image.width - 1) image.height]
   else []) ++
  (if image.height > 0 then
    [copy_sub image 0 0 image.width (image.height - 1),
     copy_sub image 0 1 image.width (image.height - 1)]
   else [])

/-- Fresh `w × h` buffer whose pixel `(x, y)` is `f x y`, filled
row-major (`y` outer, `x` inner); embeds the `ImageBuffer::new` +
nested `put_pixel` loops of the benchmark generators. -/
def fill_img (w h : Nat) (f : Nat → Nat → P) : Img P :=
  ⟨w, h, (List.range h).flatMap fun y => (List.range w).map fun x => f x y⟩

/-- Embeds `gray_bench_image`: intensity `(x % 7 + y % 6) as u8`. -/
def gray_bench_image (width height : Nat) : Img Nat :=
  fill_img width height fun x y => (x % 7 + y % 6) % 256

/-- Embeds `rgb_bench_image`: `r = (x % 7 + y % 6) as u8`,
`g = 255u8 - r`, `b = min r g`; a pixel is its channel list
`[r, g, b]`. -/
def rgb_bench_image (width height : Nat) : Img (List Nat) :=
  fill_img width height fun x y =>
    let r := (x % 7 + y % 6) % 256
    let g := 255 - r
    let b := min r g
    [r, g, b]

/-- Random source: a stream of bytes, modelling `quickcheck::Gen`.
Consuming past the end yields zeros. -/
def RandSrc : Type := List Nat

/-- Modelled from the spec: quickcheck's `Arbitrary for u8` (external to
this repository) draws one byte from the random source. Values are
reduced `% 256` so the draw is a byte whatever the stream holds. -/
def next_byte : RandSrc → Nat × RandSrc
  | [] => (0, [])
  | b :: rest => (b % 256, rest)

/-- Embeds `small_image_dimensions`: draw a `(u8, u8)` pair (two
successive bytes) and reduce each component modulo 10. -/
def small_image_dimensions (g : RandSrc) : (Nat × Nat) × RandSrc :=
  let d0 := next_byte g
  let d1 := next_byte d0.2
  ((d0.1 % 10, d1.1 % 10), d1.2)

/-- Runs a stateful pixel generator `arb` (the `ArbitraryPixel`
capability) `n` times, returning the outputs in call order and the
final random-source state. -/
def gen_pixels (arb : RandSrc → P × RandSrc) : Nat → RandSrc → List P × RandSrc
  | 0, g => ([], g)
  | n + 1, g =>
    let pg := arb g
    let rest := gen_pixels arb n pg.2
    (pg.1 :: rest.1, rest.2)

/-- Embeds `Arbitrary for TestBuffer`: dimensions from
`small_image_dimensions`, then one `ArbitraryPixel::arbitrary` call per
coordinate with `y` outer and `x` inner, so the `width * height` calls
fill the row-major data in order. -/
def testbuffer_arbitrary (arb : RandSrc → P × RandSrc) (g : RandSrc) :
    Img P × RandSrc :=
  let dims := small_image_dimensions g
  let ps := gen_pixels arb (dims.1.1 * dims.1.2) dims.2
  (⟨dims.1.1, dims.1.2, ps.1⟩, ps.2)

/-- Random-source state after `k` calls of `arb`. -/
def arb_state (arb : RandSrc → P × RandSrc) : Nat → RandSrc → RandSrc
  | 0, g => g
  | n + 1, g => arb_state arb n (arb g).2

/-- Output of the `(k+1)`-st call of `arb` starting from `g`. -/
def nth_arb (arb : RandSrc → P × RandSrc) (g : RandSrc) (k : Nat) : P :=
  (arb (arb_state arb k g)).1

/-! Helper lemmas about row-major data layout. -/

theorem row_major_index_lt {w h x y : Nat} (hx : x < w) (hy : y < h) :
    y * w + x < h * w := by
  have h1 : y * w + x < (y + 1) * w := by
    rw [Nat.succ_mul]; omega
  exact lt_of_lt_of_le h1 (Nat.mul_le_mul_right w hy)

theorem length_row_block (w h : Nat) (f : Nat → Nat → P) :
    ((List.range h).flatMap fun y => (List.range w).map fun x => f x y).length
      = h * w := by
  induction h with
  | zero => simp
  | succ n ih =>
    rw [List.range_succ, List.flatMap_append, List.length_append, ih]
    simp [Nat.succ_mul]

theorem getD_map_range (f : Nat → α) {n k : Nat} (h : k < n) (d : α) :
    ((List.range n).map f).getD k d = f k := by
  rw [List.getD_eq_getElem?_getD, List.getElem?_map, List.getElem?_range h]
  rfl

theorem getD_row_block (w h : Nat) (f : Nat → Nat → P) {x y : Nat}
    (hx : x < w) (hy : y < h) (d : P) :
    ((List.range h).flatMap fun y => (List.range w).map fun x => f x y).getD
      (y * w + x) d = f x y := by
  induction h with
  | zero => omega
  | succ n ih =>
    rw [List.range_succ, List.flatMap_append]
    by_cases hyn : y < n
    · rw [List.getD_append]
      · exact ih hyn
      · rw [length_row_block]
        exact row_major_index_lt hx hyn
    · have hyeq : y = n := by omega
      subst hyeq
      rw [List.getD_append_right]
      · rw [length_row_block]
        simp only [List.flatMap_cons, List.flatMap_nil, List.append_nil]
        have hidx : y * w + x - y * w = x := by omega
        rw [hidx]
        exact getD_map_range _ hx d
      · rw [length_row_block]; omega

theorem get_pixel_fill_img [Inhabited P] (w h : Nat) (f : Nat → Nat → P)
    {x y : Nat} (hx : x < w) (hy : y < h) :
    (fill_img w h f).get_pixel x y = f x y := by
  unfold fill_img Img.get_pixel
  exact getD_row_block w h f hx hy default

theorem gen_pixels_eq (arb : RandSrc → P × RandSrc) :
    ∀ (n : Nat) (g : RandSrc),
      gen_pixels arb n g
        = ((List.range n).map (nth_arb arb g), arb_state arb n g) := by
  intro n
  induction n with
  | zero => intro g; rfl
  | succ m ih =>
    intro g
    simp only [gen_pixels, ih, List.range_succ_eq_map, List.map_cons,
      List.map_map]
    rfl

/-- Stated from the spec's words: the buffer with column 0 removed
(remaining width `w - 1`, full height); pixel `(x, y)` is the parent
pixel `(x + 1, y)`. -/
def remove_col0 [Inhabited P] (img : Img P) : Img P :=
  fill_img (img.width - 1) img.height fun x y => img.get_pixel (x + 1) y

/-- Stated from the spec's words: the buffer with the last column
removed (remaining width `w - 1`, full height); pixel `(x, y)` is the
parent pixel `(x, y)`. -/
def remove_last_col [Inhabited P] (img : Img P) : Img P :=
  fill_img (img.width - 1) img.height fun x y => img.get_pixel x y

/-- Stated from the spec's words: the buffer with row 0 removed
(remaining height `h - 1`, full width); pixel `(x, y)` is the parent
pixel `(x, y + 1)`. -/
def remove_row0 [Inhabited P] (img : Img P) : Img P :=
  fill_img img.width (img.height - 1) fun x y => img.get_pixel x (y + 1)

/-- Stated from the spec's words: the buffer with the last row removed
(remaining height `h - 1`, full width); pixel `(x, y)` is the parent
pixel `(x, y)`. -/
def remove_last_row [Inhabited P] (img : Img P) : Img P :=
  fill_img img.width (img.height - 1) fun x y => img.get_pixel x y

theorem copy_sub_eq_remove_last_col [Inhabited P] (img : Img P) :
    copy_sub img 0 0 (img.width - 1) img.height = remove_last_col img := by
  simp [copy_sub, remove_last_col, fill_img]

theorem copy_sub_eq_remove_col0 [Inhabited P] (img : Img P) :
    copy_sub img 1 0 (img.width - 1) img.height = remove_col0 img := by
  simp [copy_sub, remove_col0, fill_img, Nat.add_comm]

theorem copy_sub_eq_remove_last_row [Inhabited P] (img : Img P) :
    copy_sub img 0 0 img.width (img.height - 1) = remove_last_row img := by
  simp [copy_sub, remove_last_row, fill_img]

theorem copy_sub_eq_remove_row0 [Inhabited P] (img : Img P) :
    copy_sub img 0 1 img.width (img.height - 1) = remove_row0 img := by
  simp [copy_sub, remove_row0, fill_img, Nat.add_comm]

theorem shrink_measure [Inhabited P] {img c : Img P} (hc : c ∈ shrink img) :
    c.width + c.height + 1 = img.width + img.height := by
  unfold shrink at hc
  rw [List.mem_append] at hc
  rcases hc with hc | hc
  · by_cases hw : img.width > 0
    · rw [if_pos hw] at hc
      simp only [List.mem_cons, List.not_mem_nil, or_false] at hc
      rcases hc with hc | hc <;> subst hc <;> simp only [copy_sub] <;> omega
    · rw [if_neg hw] at hc
      simp at hc
  · by_cases hh : img.height > 0
    · rw [if_pos hh] at hc
      simp only [List.mem_cons, List.not_mem_nil, or_false] at hc
      rcases hc with hc | hc <;> subst hc <;> simp only [copy_sub] <;> omega
    · rw [if_neg hh] at hc
      simp at hc

theorem mod_sum_lt {x y : Nat} : x % 7 + y % 6 < 13 := by
  have h7 := Nat.mod_lt x (show 0 < 7 by omega)
  have h6 := Nat.mod_lt y (show 0 < 6 by omega)
  omega

/-! Claim theorems. -/

/-- C7: the benchmark generators fill each pixel purely from its
coordinates: `gray_bench_image w h` has intensity `x % 7 + y % 6` at each
in-range `(x, y)` (so `(0,0) = 0` and `(6,5) = 11` for `w = 7, h = 6`), and
`rgb_bench_image w h` has `red = x % 7 + y % 6`, `green = 255 - red`,
`blue = min red green`; both are pure, so two calls with the same
arguments give equal buffers. -/
theorem C7_bench_images (w h x y : Nat) (hx : x < w) (hy : y < h) :
    (gray_bench_image w h).get_pixel x y = x % 7 + y % 6 ∧
    (gray_bench_image 7 6).get_pixel 0 0 = 0 ∧
    (gray_bench_image 7 6).get_pixel 6 5 = 11 ∧
    (rgb_bench_image w h).get_pixel x y =
      [x % 7 + y % 6, 255 - (x % 7 + y % 6),
        min (x % 7 + y % 6) (255 - (x % 7 + y % 6))] ∧
    gray_bench_image w h = gray_bench_image w h ∧
    rgb_bench_image w h = rgb_bench_image w h := by
  have hmod : (x % 7 + y % 6) % 256 = x % 7 + y % 6 :=
    Nat.mod_eq_of_lt (lt_trans mod_sum_lt (by omega))
  refine ⟨?_, by decide, by decide, ?_, rfl, rfl⟩
  · unfold gray_bench_image
    rw [get_pixel_fill_img w h _ hx hy, hmod]
  · unfold rgb_bench_image
    rw [get_pixel_fill_img w h _ hx hy]
    simp only [hmod]

/-- C7 witness: the general pixel formulas evaluated at
`w = 7, h = 6, (x, y) = (6, 5)`. -/
theorem C7_bench_images_witness :
    (gray_bench_image 7 6).get_pixel 6 5 = 6 % 7 + 5 % 6 ∧
    (rgb_bench_image 7 6).get_pixel 6 5 =
      [6 % 7 + 5 % 6, 255 - (6 % 7 + 5 % 6),
        min (6 % 7 + 5 % 6) (255 - (6 % 7 + 5 % 6))] :=
  ⟨(C7_bench_images 7 6 6 5 (by decide) (by decide)).1,
   (C7_bench_images 7 6 6 5 (by decide) (by decide)).2.2.2.1⟩

/-- C10: in every in-range pixel of `rgb_bench_image`, the blue channel
equals the red channel: `red = x % 7 + y % 6 ≤ 11`, so
`green = 255 - red ≥ 244` and `min red green = red`; all intermediate
values stay below 256, so no `u8` addition or subtraction wraps. -/
theorem C10_rgb_blue_eq_red (w h x y : Nat) (hx : x < w) (hy : y < h) :
    (rgb_bench_image w h).get_pixel x y =
      [x % 7 + y % 6, 255 - (x % 7 + y % 6), x % 7 + y % 6] ∧
    x % 7 + y % 6 ≤ 12 ∧
    243 ≤ 255 - (x % 7 + y % 6) ∧
    x % 7 + y % 6 < 256 := by
  have hb := @mod_sum_lt x y
  have hmod : (x % 7 + y % 6) % 256 = x % 7 + y % 6 :=
    Nat.mod_eq_of_lt (by omega)
  have hmin : min (x % 7 + y % 6) (255 - (x % 7 + y % 6)) = x % 7 + y % 6 :=
    Nat.min_eq_left (by omega)
  refine ⟨?_, by omega, by omega, by omega⟩
  unfold rgb_bench_image
  rw [get_pixel_fill_img w h _ hx hy]
  simp only [hmod, hmin]

/-- C10 witness: blue equals red at pixel `(6, 5)` of the `7 × 6`
benchmark image. -/
theorem C10_rgb_blue_eq_red_witness :
    (rgb_bench_image 7 6).get_pixel 6 5 =
      [6 % 7 + 5 % 6, 255 - (6 % 7 + 5 % 6), 6 % 7 + 5 % 6] :=
  (C10_rgb_blue_eq_red 7 6 6 5 (by decide) (by decide)).1

/-- C8: the arbitrary test buffer draws its width and height by sampling
one byte each and reducing modulo 10 (so both lie in `[0, 9]`), and its
`width * height` pixels are exactly the outputs of that many successive
`ArbitraryPixel` calls laid out in row-major order: pixel `(x, y)` is the
output of call number `y * width + x` (counting from 0). -/
theorem C8_testbuffer_arbitrary [Inhabited P] (arb : RandSrc → P × RandSrc)
    (g : RandSrc) :
    (testbuffer_arbitrary arb g).1.width = (next_byte g).1 % 10 ∧
    (testbuffer_arbitrary arb g).1.height = (next_byte (next_byte g).2).1 % 10 ∧
    (testbuffer_arbitrary arb g).1.width ≤ 9 ∧
    (testbuffer_arbitrary arb g).1.height ≤ 9 ∧
    (testbuffer_arbitrary arb g).1.data =
      (List.range
          ((testbuffer_arbitrary arb g).1.width *
            (testbuffer_arbitrary arb g).1.height)).map
        (nth_arb arb (small_image_dimensions g).2) ∧
    (∀ x y, x < (testbuffer_arbitrary arb g).1.width →
      y < (testbuffer_arbitrary arb g).1.height →
      (testbuffer_arbitrary arb g).1.get_pixel x y =
        nth_arb arb (small_image_dimensions g).2
          (y * (testbuffer_arbitrary arb g).1.width + x)) := by
  have hw : (testbuffer_arbitrary arb g).1.width = (next_byte g).1 % 10 := by
    simp [testbuffer_arbitrary, small_image_dimensions]
  have hh : (testbuffer_arbitrary arb g).1.height
      = (next_byte (next_byte g).2).1 % 10 := by
    simp [testbuffer_arbitrary, small_image_dimensions]
  have hdata : (testbuffer_arbitrary arb g).1.data =
      (List.range
          ((testbuffer_arbitrary arb g).1.width *
            (testbuffer_arbitrary arb g).1.height)).map
        (nth_arb arb (small_image_dimensions g).2) := by
    simp [testbuffer_arbitrary, gen_pixels_eq, small_image_dimensions]
  refine ⟨hw, hh, ?_, ?_, hdata, ?_⟩
  · rw [hw]; have := Nat.mod_lt (next_byte g).1 (show 0 < 10 by omega); omega
  · rw [hh]
    have := Nat.mod_lt (next_byte (next_byte g).2).1 (show 0 < 10 by omega)
    omega
  · intro x y hx hy
    unfold Img.get_pixel
    rw [hdata]
    have hlt : y * (testbuffer_arbitrary arb g).1.width + x <
        (testbuffer_arbitrary arb g).1.width *
          (testbuffer_arbitrary arb g).1.height := by
      have h1 := row_major_index_lt hx hy
      rwa [Nat.mul_comm (testbuffer_arbitrary arb g).1.height
        (testbuffer_arbitrary arb g).1.width] at h1
    exact getD_map_range _ hlt default

/-- C8 witness: with the pixel generator that echoes the next byte and
stream `[13, 24, 1, 2, 3, 4, 5, 6, 7]`, the buffer is `3 × 4` (from
`13 % 10` and `24 % 10`) and pixel `(2, 1)` is the output of call 5. -/
theorem C8_testbuffer_arbitrary_witness :
    (testbuffer_arbitrary next_byte [13, 24, 1, 2, 3, 4, 5, 6, 7]).1.width = 3 ∧
    (testbuffer_arbitrary next_byte [13, 24, 1, 2, 3, 4, 5, 6, 7]).1.height = 4 ∧
    (testbuffer_arbitrary next_byte [13, 24, 1, 2, 3, 4, 5, 6, 7]).1.get_pixel 2 1
      = nth_arb next_byte
          (small_image_dimensions [13, 24, 1, 2, 3, 4, 5, 6, 7]).2 5 := by
  have h := C8_testbuffer_arbitrary next_byte [13, 24, 1, 2, 3, 4, 5, 6, 7]
  refine ⟨by decide, by decide, ?_⟩
  have h6 := h.2.2.2.2.2 2 1 (by decide) (by decide)
  simpa using h6

/-- C1 counterexample: on the 2×2 buffer with pixels `0, 1, 2, 3`, the
shrink sequence is NOT column-0-removed, last-column-removed,
row-0-removed, last-row-removed in that order; the code emits the
last-column-removed candidate first and the last-row-removed candidate
third. -/
theorem C1_shrink_order_cex :
    shrink (⟨2, 2, [0, 1, 2, 3]⟩ : Img Nat) ≠
      [remove_col0 ⟨2, 2, [0, 1, 2, 3]⟩, remove_last_col ⟨2, 2, [0, 1, 2, 3]⟩,
        remove_row0 ⟨2, 2, [0, 1, 2, 3]⟩, remove_last_row ⟨2, 2, [0, 1, 2, 3]⟩] ∧
    shrink (⟨2, 2, [0, 1, 2, 3]⟩ : Img Nat) =
      [remove_last_col ⟨2, 2, [0, 1, 2, 3]⟩, remove_col0 ⟨2, 2, [0, 1, 2, 3]⟩,
        remove_last_row ⟨2, 2, [0, 1, 2, 3]⟩, remove_row0 ⟨2, 2, [0, 1, 2, 3]⟩] := by
  decide

/-- C1 (amended): for `w > 0` and `h > 0` the shrink operation emits
exactly four candidates in this order: first the buffer with the LAST
column removed (width `w-1`, full height), then the buffer with column 0
removed (width `w-1`, full height), then the buffer with the LAST row
removed (height `h-1`, full width), then the buffer with row 0 removed
(height `h-1`, full width); when only `w > 0` or only `h > 0` holds,
only the corresponding pair is emitted, in that same relative order. -/
theorem C1_shrink_order [Inhabited P] (img : Img P) :
    (0 < img.width → 0 < img.height →
      shrink img = [remove_last_col img, remove_col0 img,
        remove_last_row img, remove_row0 img]) ∧
    (0 < img.width → img.height = 0 →
      shrink img = [remove_last_col img, remove_col0 img]) ∧
    (img.width = 0 → 0 < img.height →
      shrink img = [remove_last_row img, remove_row0 img]) := by
  refine ⟨?_, ?_, ?_⟩
  · intro hw hh
    unfold shrink
    rw [if_pos hw, if_pos hh, copy_sub_eq_remove_last_col,
      copy_sub_eq_remove_col0, copy_sub_eq_remove_last_row,
      copy_sub_eq_remove_row0]
    rfl
  · intro hw hh
    unfold shrink
    rw [if_pos hw, if_neg (by omega), copy_sub_eq_remove_last_col,
      copy_sub_eq_remove_col0]
    rfl
  · intro hw hh
    unfold shrink
    rw [if_neg (by omega), if_pos hh, copy_sub_eq_remove_last_row,
      copy_sub_eq_remove_row0]
    rfl

/-- C1 witness: the amended order evaluated on the 2×2 buffer with
pixels `0, 1, 2, 3`. -/
theorem C1_shrink_order_witness :
    shrink (⟨2, 2, [0, 1, 2, 3]⟩ : Img Nat) =
      [remove_last_col ⟨2, 2, [0, 1, 2, 3]⟩, remove_col0 ⟨2, 2, [0, 1, 2, 3]⟩,
        remove_last_row ⟨2, 2, [0, 1, 2, 3]⟩, remove_row0 ⟨2, 2, [0, 1, 2, 3]⟩] :=
  (C1_shrink_order ⟨2, 2, [0, 1, 2, 3]⟩).1 (by decide) (by decide)

/-- C2: the shrink sequence has at most 4 candidates; every candidate's
width + height is exactly one less than the parent's; which candidates
appear and their shapes depend only on the parent's shape, not on pixel
values; the 0×0 buffer shrinks to the empty sequence; and no infinite
chain of successive shrink candidates exists, so iteration terminates. -/
theorem C2_shrink_finite [Inhabited P] (img : Img P) :
    (shrink img).length ≤ 4 ∧
    (∀ c ∈ shrink img, c.width + c.height + 1 = img.width + img.height) ∧
    (∀ img' : Img P, img.width = img'.width → img.height = img'.height →
      (shrink img).map Img.dims = (shrink img').map Img.dims) ∧
    (img.width = 0 → img.height = 0 → shrink img = []) ∧
    (∀ f : Nat → Img P, ¬ (∀ n, f (n + 1) ∈ shrink (f n))) := by
  refine ⟨?_, fun c hc => shrink_measure hc, ?_, ?_, ?_⟩
  · by_cases hw : img.width > 0 <;> by_cases hh : img.height > 0 <;>
      simp [shrink, hw, hh]
  · intro img' h1 h2
    by_cases hw : img.width > 0 <;> by_cases hh : img.height > 0 <;>
      simp [shrink, copy_sub, Img.dims, ← h1, ← h2, hw, hh]
  · intro h1 h2
    simp [shrink, h1, h2]
  · intro f hstep
    have key : ∀ n, (f n).width + (f n).height + n
        = (f 0).width + (f 0).height := by
      intro n
      induction n with
      | zero => rfl
      | succ m ih =>
        have hm := shrink_measure (hstep m)
        omega
    have h1 := key ((f 0).width + (f 0).height + 1)
    omega

/-- C2 witness: the bound and the terminal case evaluated on concrete
buffers. -/
theorem C2_shrink_finite_witness :
    (shrink (⟨2, 2, [9, 9, 9, 9]⟩ : Img Nat)).length ≤ 4 ∧
    shrink (⟨0, 0, []⟩ : Img Nat) = [] :=
  ⟨(C2_shrink_finite ⟨2, 2, [9, 9, 9, 9]⟩).1,
   (C2_shrink_finite (⟨0, 0, []⟩ : Img Nat)).2.2.2.1 rfl rfl⟩

/-- C3: if either buffer has width 0 or height 0, `pixel_diffs` returns
the empty list whatever the predicate and whatever the other buffer's
dimensions or content; the predicate never influences the result. -/
theorem C3_pixel_diffs_empty [Inhabited P] (left right : Img P)
    (is_diff : Nat × Nat × P → Nat × Nat × P → Bool)
    (h : left.width = 0 ∨ left.height = 0 ∨
      right.width = 0 ∨ right.height = 0) :
    pixel_diffs left right is_diff = [] := by
  have hcond : (is_empty left || is_empty right) = true := by
    simp only [is_empty, Bool.or_eq_true, beq_iff_eq]
    tauto
  unfold pixel_diffs
  rw [if_pos hcond]

/-- C3 witness: a 0-width buffer against a populated 3×1 buffer under
the always-true predicate yields no diffs. -/
theorem C3_pixel_diffs_empty_witness :
    pixel_diffs (⟨0, 5, []⟩ : Img Nat) ⟨3, 1, [7, 8, 9]⟩
      (fun _ _ => true) = [] :=
  C3_pixel_diffs_empty ⟨0, 5, []⟩ ⟨3, 1, [7, 8, 9]⟩ _ (Or.inl rfl)

/-- C5: when the two buffers' dimensions differ, the summary is the
dimension-mismatch message built from both dimension pairs, it does not
depend on the diff predicate (no pixel is scanned), and the
`assert_dimensions_match!` check fails with the same message. -/
theorem C5_dimension_mismatch [Inhabited P] (fmt : Nat × Nat × P → String)
    (actual expected : Img P)
    (f g : Nat × Nat × P → Nat × Nat × P → Bool)
    (h : actual.dims ≠ expected.dims) :
    significant_pixel_diff_summary fmt actual expected f
      = some (dim_mismatch_msg actual.dims expected.dims) ∧
    significant_pixel_diff_summary fmt actual expected f
      = significant_pixel_diff_summary fmt actual expected g ∧
    assert_dimensions_match actual expected
      = Except.error (dim_mismatch_msg actual.dims expected.dims) := by
  have e1 : significant_pixel_diff_summary fmt actual expected f
      = some (dim_mismatch_msg actual.dims expected.dims) := by
    unfold significant_pixel_diff_summary; rw [if_pos h]
  have e2 : significant_pixel_diff_summary fmt actual expected g
      = some (dim_mismatch_msg actual.dims expected.dims) := by
    unfold significant_pixel_diff_summary; rw [if_pos h]
  have e3 : assert_dimensions_match actual expected
      = Except.error (dim_mismatch_msg actual.dims expected.dims) := by
    unfold assert_dimensions_match; rw [if_pos h]
  exact ⟨e1, e1.trans e2.symm, e3⟩

/-- C5 witness: a 2×1 buffer against a 1×2 buffer triggers the mismatch
message with both dimension pairs. -/
theorem C5_dimension_mismatch_witness :
    significant_pixel_diff_summary (fun _ => "") (⟨2, 1, [0, 1]⟩ : Img Nat)
        ⟨1, 2, [0, 1]⟩ (fun _ _ => false)
      = some (dim_mismatch_msg (2, 1) (1, 2)) :=
  (C5_dimension_mismatch (fun _ => "") ⟨2, 1, [0, 1]⟩ ⟨1, 2, [0, 1]⟩
    (fun _ _ => false) (fun _ _ => false) (by decide)).1

theorem filter_zip_self_ne [DecidableEq α] (l : List α) :
    ((l.zip l).filter fun pq => decide (pq.1 ≠ pq.2)) = [] := by
  induction l with
  | nil => rfl
  | cons a as ih => simpa using ih

/-- C6: comparing any buffer against itself yields no diffs:
`pixel_diffs a a (p ≠ q)` is empty and `pixel_diff_summary a a` is
`none`; in particular the 3×2 grayscale buffer with rows `0 1 2` and
`3 4 5` matches an identical copy. -/
theorem C6_diff_reflexive [Inhabited P] [DecidableEq P]
    (fmt : Nat × Nat × P → String) (a : Img P) :
    pixel_diffs a a (fun p q => decide (p ≠ q)) = [] ∧
    pixel_diff_summary fmt a a = none ∧
    pixel_diff_summary (fun _ => "") (⟨3, 2, [0, 1, 2, 3, 4, 5]⟩ : Img Nat)
      ⟨3, 2, [0, 1, 2, 3, 4, 5]⟩ = none := by
  have h1 : pixel_diffs a a (fun p q => decide (p ≠ q)) = [] := by
    unfold pixel_diffs
    by_cases hc : (is_empty a || is_empty a) = true
    · rw [if_pos hc]
    · rw [if_neg hc]
      exact filter_zip_self_ne a.pixels
  refine ⟨h1, ?_, by decide⟩
  unfold pixel_diff_summary significant_pixel_diff_summary
  rw [if_neg (fun hc => hc rfl), h1]
  rfl

/-- C9: `describe_pixel_diffs` begins with the summary header
`"pixels do not match. "`, renders only the first 5 diffs (the result
equals the rendering of `diffs.take 5`), and is exactly the header
followed by one actual-vs-expected line per rendered diff in the given
order; as a pure function it is deterministic in the diff sequence. -/
theorem C9_describe_pixel_diffs (fmt : α → String) (diffs : List (α × α)) :
    (∃ rest, describe_pixel_diffs fmt diffs
      = "pixels do not match. " ++ rest) ∧
    describe_pixel_diffs fmt diffs
      = describe_pixel_diffs fmt (diffs.take 5) ∧
    describe_pixel_diffs fmt diffs
      = "pixels do not match. " ++
          String.join ((diffs.take 5).map fun d =>
            "\nactual: " ++ fmt d.1 ++ ", expected " ++ fmt d.2 ++ " ") := by
  refine ⟨⟨_, rfl⟩, ?_, rfl⟩
  unfold describe_pixel_diffs
  rw [List.take_take]
  norm_num

theorem zip_any_gt_iff (tol : Nat) :
    ∀ (cp cq : List Nat), cp.length = cq.length →
      (((cp.zip cq).any fun s => subpixel_abs_diff s.1 s.2 > tol) = true ↔
        ∃ i, ∃ hi : i < cp.length, ∃ hj : i < cq.length,
          subpixel_abs_diff (cp.get ⟨i, hi⟩) (cq.get ⟨i, hj⟩) > tol)
  | [], [], _ => by simp
  | [], b :: bs, h => by simp at h
  | a :: as, [], h => by simp at h
  | a :: as, b :: bs, h => by
    have ih := zip_any_gt_iff tol as bs (by simpa using h)
    simp only [List.zip_cons_cons, List.any_cons, Bool.or_eq_true, ih,
      decide_eq_true_eq]
    constructor
    · rintro (hd | ⟨i, hi, hj, hgt⟩)
      · have hi' : 0 < (a :: as).length := by simp
        have hj' : 0 < (b :: bs).length := by simp
        exact ⟨0, hi', hj', hd⟩
      · have hi' : i + 1 < (a :: as).length := by
          simp only [List.length_cons]; omega
        have hj' : i + 1 < (b :: bs).length := by
          simp only [List.length_cons]; omega
        exact ⟨i + 1, hi', hj', hgt⟩
    · rintro ⟨i, hi, hj, hgt⟩
      cases i with
      | zero => exact Or.inl hgt
      | succ i =>
        have hi' : i < as.length := by
          simp only [List.length_cons] at hi; omega
        have hj' : i < bs.length := by
          simp only [List.length_cons] at hj; omega
        exact Or.inr ⟨i, hi', hj', hgt⟩

/-- C4: with matching channel counts, a pixel pair is judged equal by
the `assert_pixels_eq_within!` closure exactly when every channel's
absolute difference is at most `tol`, and judged different exactly when
some channel exceeds `tol`; comparing `[[0,2,2],[3,4,5]]` against
`[[0,1,2],[3,4,5]]` passes with tolerance 1, and with tolerance 0 the
scan reports exactly one diff at coordinate `(1, 0)` so the assertion
fails. -/
theorem C4_tolerance (tol : Nat) (cp cq : List Nat)
    (h : cp.length = cq.length) :
    ((∀ i, ∀ hi : i < cp.length, ∀ hj : i < cq.length,
        subpixel_abs_diff (cp.get ⟨i, hi⟩) (cq.get ⟨i, hj⟩) ≤ tol) ↔
      large_diff tol cp cq = some false) ∧
    ((∃ i, ∃ hi : i < cp.length, ∃ hj : i < cq.length,
        subpixel_abs_diff (cp.get ⟨i, hi⟩) (cq.get ⟨i, hj⟩) > tol) ↔
      large_diff tol cp cq = some true) ∧
    (∀ fmt, assert_pixels_eq_within fmt
        ⟨3, 2, [[0], [2], [2], [3], [4], [5]]⟩
        ⟨3, 2, [[0], [1], [2], [3], [4], [5]]⟩ 1 = Except.ok ()) ∧
    pixel_diffs_p (⟨3, 2, [[0], [2], [2], [3], [4], [5]]⟩ : Img (List Nat))
        ⟨3, 2, [[0], [1], [2], [3], [4], [5]]⟩
        (fun p q => large_diff 0 p.2.2 q.2.2)
      = some [((1, 0, [2]), (1, 0, [1]))] ∧
    (∀ fmt, assert_pixels_eq_within fmt
        ⟨3, 2, [[0], [2], [2], [3], [4], [5]]⟩
        ⟨3, 2, [[0], [1], [2], [3], [4], [5]]⟩ 0
      = Except.error (describe_pixel_diffs fmt [((1, 0, [2]), (1, 0, [1]))])) := by
  have hlen : ¬ cp.length ≠ cq.length := fun hc => hc h
  have hiff := zip_any_gt_iff tol cp cq h
  have hd0 : pixel_diffs_p
      (⟨3, 2, [[0], [2], [2], [3], [4], [5]]⟩ : Img (List Nat))
      ⟨3, 2, [[0], [1], [2], [3], [4], [5]]⟩
      (fun p q => large_diff 0 p.2.2 q.2.2)
      = some [((1, 0, [2]), (1, 0, [1]))] := by decide
  have hd1 : pixel_diffs_p
      (⟨3, 2, [[0], [2], [2], [3], [4], [5]]⟩ : Img (List Nat))
      ⟨3, 2, [[0], [1], [2], [3], [4], [5]]⟩
      (fun p q => large_diff 1 p.2.2 q.2.2)
      = some [] := by decide
  refine ⟨?_, ?_, ?_, hd0, ?_⟩
  · simp only [large_diff, if_neg hlen, Option.some.injEq,
      Bool.eq_false_iff, Ne, hiff]
    push_neg
    constructor
    · intro hall i hi hj
      have := hall i hi hj
      omega
    · intro hall i hi hj
      have := hall i hi hj
      omega
  · simp only [large_diff, if_neg hlen, Option.some.injEq]
    exact hiff.symm
  · intro fmt
    unfold assert_pixels_eq_within
    rw [if_neg (by decide), hd1]
  · intro fmt
    unfold assert_pixels_eq_within
    rw [if_neg (by decide), hd0]

/-- C4 witness: single-channel pixels 2 and 1 are judged equal at
tolerance 1 and different at tolerance 0. -/
theorem C4_tolerance_witness :
    large_diff 1 [2] [1] = some false ∧ large_diff 0 [2] [1] = some true :=
  ⟨(C4_tolerance 1 [2] [1] rfl).1.mp (by
      intro i hi hj
      have hz : i = 0 := by simpa using hi
      subst hz
      exact (by decide : subpixel_abs_diff 2 1 ≤ 1)),
   (C4_tolerance 0 [2] [1] rfl).2.1.mp
     ⟨0, by decide, by decide, by decide⟩⟩

end ImageprocUtils
